import Mathlib

/-!
Shallow embedding of the RIPv2 simulation (src/packet.py and src/router.py).

Conventions of the embedding:
* byte strings are `List Nat` (each entry is one byte of the datagram);
* wall-clock time is a natural number of seconds, and every function of the
  source that calls `datetime.datetime.now()` takes the current time `now`
  as an explicit argument;
* Python code that can raise returns `Option` (constructors / decoders) or
  `Except RouterState RouterState` (the receive path, where the error value
  carries the table state at the moment the exception propagates);
* Python `dict` is an insertion-ordered association list with unique keys.
-/

/-- Big-endian integer value of a byte list, as `struct.unpack` reads an
unsigned network-order field. -/
def beNat (bs : List Nat) : Nat := bs.foldl (fun a b => 256 * a + b) 0

/-- Big-endian two-byte encoding of a u16 field (`struct.pack "!H"`). -/
def toBytes2 (n : Nat) : List Nat := [n / 256, n % 256]

/-- Big-endian four-byte encoding of a u32 field (`struct.pack "!I"`). -/
def toBytes4 (n : Nat) : List Nat := toBytes2 (n / 65536) ++ toBytes2 (n % 65536)

/-- packet.py `RTE`: the six wire fields (`"!HHIIII"`) plus the bookkeeping
flags the router keeps on each table entry (`changed`, `imported`,
`is_garbage`, `timeout`). -/
structure RTE where
  afi : Nat
  tag : Nat
  addr : Nat
  mask : Nat
  next_hop : Nat
  metric : Nat
  changed : Bool
  imported : Bool
  is_garbage : Bool
  timeout : Option Nat
  deriving Repr, DecidableEq

/-- packet.py `RTE.MAX_METRIC`. -/
def RTE.MAX_METRIC : Nat := 16

/-- packet.py `RTE.SIZE` (struct.calcsize "!HHIIII"). -/
def RTE.SIZE : Nat := 20

/-- packet.py `RTE.__init__` with `raw_data`/`src_id` given, i.e.
`RTE._from_network`: `struct.unpack` of the 20-byte slice (failing on any
other length), with a wire `next_hop` of 0 replaced by the datagram sender
`src_id`.  The constructor has already set `changed = False`,
`imported = False` and called `init_timeout` (so `timeout = now`,
`is_garbage = False`). -/
def RTE.from_network (raw : List Nat) (src_id : Nat) (now : Nat) : Option RTE :=
  if raw.length = 20 then
    let nh := beNat ((raw.drop 12).take 4)
    some { afi := beNat (raw.take 2)
           tag := beNat ((raw.drop 2).take 2)
           addr := beNat ((raw.drop 4).take 4)
           mask := beNat ((raw.drop 8).take 4)
           next_hop := if nh = 0 then src_id else nh
           metric := beNat ((raw.drop 16).take 4)
           changed := false
           imported := false
           is_garbage := false
           timeout := some now }
  else none

/-- packet.py `RTE.__init__` without raw data, i.e. `RTE._from_host`:
`afi = AF_INET = 2`, `tag = 0`, `mask = 0`; `changed = False` and
`init_timeout` (timeout `None` for imported entries, else `now`). -/
def RTE.from_host (address next_hop metric : Nat) (imported : Bool) (now : Nat) : RTE :=
  { afi := 2
    tag := 0
    addr := address
    mask := 0
    next_hop := next_hop
    metric := metric
    changed := false
    imported := imported
    is_garbage := false
    timeout := if imported then none else some now }

/-- packet.py `RTE.init_timeout`: reset `timeout` (None when imported, else
the current time) and clear `is_garbage`. -/
def RTE.init_timeout_at (r : RTE) (now : Nat) : RTE :=
  { r with timeout := if r.imported then none else some now, is_garbage := false }

/-- packet.py `RTE.serialize`: `struct.pack "!HHIIII"`, which raises unless
every field fits its wire width. -/
def RTE.serialize (r : RTE) : Option (List Nat) :=
  if r.afi < 65536 ∧ r.tag < 65536 ∧ r.addr < 4294967296 ∧ r.mask < 4294967296 ∧
     r.next_hop < 4294967296 ∧ r.metric < 4294967296 then
    some (toBytes2 r.afi ++ toBytes2 r.tag ++ toBytes4 r.addr ++ toBytes4 r.mask ++
          toBytes4 r.next_hop ++ toBytes4 r.metric)
  else none

/-- packet.py `Header`: `cmd:u8, ver:u8, src:u16` (the must-be-zero field
carries the sending router id). -/
structure Header where
  cmd : Nat
  ver : Nat
  src : Nat
  deriving Repr, DecidableEq

/-- packet.py `Header.SIZE` (struct.calcsize "!BBH"). -/
def Header.SIZE : Nat := 4

/-- packet.py `Header._from_network`: `struct.unpack "!BBH"`, which raises
unless the slice is exactly 4 bytes long. -/
def Header.from_network (raw : List Nat) : Option Header :=
  if raw.length = 4 then
    some { cmd := beNat (raw.take 1)
           ver := beNat ((raw.drop 1).take 1)
           src := beNat (raw.drop 2) }
  else none

/-- packet.py `Header._from_host`: `cmd = COMMAND_RESPONSE = 2`,
`ver = VERSION = 2`, `src = router_id`. -/
def Header.from_host (router_id : Nat) : Header :=
  { cmd := 2, ver := 2, src := router_id }

/-- packet.py `Header.serialize`: `struct.pack "!BBH"`, which raises unless
the fields fit their wire widths. -/
def Header.serialize (h : Header) : Option (List Nat) :=
  if h.cmd < 256 ∧ h.ver < 256 ∧ h.src < 65536 then
    some ([h.cmd, h.ver] ++ toBytes2 h.src)
  else none

/-- packet.py `Packet`: a header and a list of RTEs. -/
structure Packet where
  header : Header
  rtes : List RTE
  deriving Repr, DecidableEq

/-- The RTE-decoding loop of packet.py `Packet._from_network`: `count`
iterations, each unpacking the next 20-byte slice. -/
def decodeRtes : Nat → List Nat → Nat → Nat → Option (List RTE)
  | 0, _, _, _ => some []
  | count + 1, rest, src, now =>
    match RTE.from_network (rest.take 20) src now, decodeRtes count (rest.drop 20) src now with
    | some r, some rs => some (r :: rs)
    | _, _ => none

/-- packet.py `Packet._from_network`: `rte_count = int((datalen - 4) / 20)`,
header from the first 4 bytes, then `rte_count` RTEs.  (For `datalen < 4`
Python's `int()` truncation also yields a count of 0, and the header unpack
raises; `Nat` truncated subtraction models this.) -/
def Packet.from_network (data : List Nat) (now : Nat) : Option Packet :=
  match Header.from_network (data.take 4) with
  | none => none
  | some h =>
    match decodeRtes ((data.length - 4) / 20) (data.drop 4) h.src now with
    | none => none
    | some rs => some { header := h, rtes := rs }

/-- The RTE loop of packet.py `Packet.serialize`: concatenation of the
serialized RTEs. -/
def serializeRtes : List RTE → Option (List Nat)
  | [] => some []
  | r :: rs =>
    match r.serialize, serializeRtes rs with
    | some b, some bs => some (b ++ bs)
    | _, _ => none

/-- packet.py `Packet.serialize`: serialized header followed by the
serialized RTEs. -/
def Packet.serialize (p : Packet) : Option (List Nat) :=
  match p.header.serialize, serializeRtes p.rtes with
  | some hb, some rb => some (hb ++ rb)
  | _, _ => none

/-- Python `dict.get`: value at the (unique) key, if present. -/
def alGet {α : Type} : List (Nat × α) → Nat → Option α
  | [], _ => none
  | (k, v) :: rest, a => if k = a then some v else alGet rest a

/-- Python `dict.__setitem__`: replace the value at an existing key in
place, else append the new binding at the end (insertion order). -/
def alSet {α : Type} : List (Nat × α) → Nat → α → List (Nat × α)
  | [], a, v => [(a, v)]
  | (k, w) :: rest, a, v =>
    if k = a then (a, v) :: rest else (k, w) :: alSet rest a v

/-- router.py `Router` state read or written by the table logic: `id`,
`outputs` (neighbor id to link metric; the port is never read by the table
logic), the routing table (destination id to RTE, insertion ordered), the
table-level change flag, and whether `self.inputs` is nonempty (the guard
of `Router.update`). -/
structure RouterState where
  id : Nat
  outputs : List (Nat × Nat)
  routing_table : List (Nat × RTE)
  changed : Bool
  hasInputs : Bool
  deriving Repr, DecidableEq

/-- router.py `Router.TIMER`. -/
def Router.TIMER : Nat := 5

/-- router.py `Router.ROUTE_TIMEOUT = TIMER * 6`. -/
def Router.ROUTE_TIMEOUT : Nat := Router.TIMER * 6

/-- router.py `Router.DELETE_TIMEOUT = TIMER * 6`. -/
def Router.DELETE_TIMEOUT : Nat := Router.TIMER * 6

/-- router.py `Router.update_route`: `init_timeout` on the current entry,
clear `is_garbage`, set `changed`, copy `metric` and `next_hop` from the
received entry. -/
def Router.update_route (cur rte : RTE) (now : Nat) : RTE :=
  { cur.init_timeout_at now with changed := true, metric := rte.metric, next_hop := rte.next_hop }

/-- router.py `Router.update_routing_table`, as a function of the decoded
RTE list of the packet (`src` is `packet.header.src`).  `.error s` models a
`KeyError` from `self.outputs[packet.header.src]` propagating with the
table in state `s`; note the two `return` statements of the new-route
branch, which abandon the remaining RTEs of the datagram. -/
def Router.update_routing_table (s : RouterState) (src : Nat) (now : Nat) :
    List RTE → Except RouterState RouterState
  | [] => .ok s
  | rte :: rest =>
    if rte.addr = s.id then
      Router.update_routing_table s src now rest
    else
      match alGet s.outputs src with
      | none => .error s
      | some link =>
        let rte1 : RTE := { rte with next_hop := src, metric := min (rte.metric + link) RTE.MAX_METRIC }
        match alGet s.routing_table rte1.addr with
        | none =>
          if rte1.metric = RTE.MAX_METRIC then
            .ok s
          else
            .ok { s with
                  routing_table := alSet s.routing_table rte1.addr { rte1 with changed := true },
                  changed := true }
        | some cur =>
          if rte1.next_hop = cur.next_hop then
            if cur.metric ≠ rte1.metric ∧ RTE.MAX_METRIC ≤ rte1.metric then
              Router.update_routing_table
                { s with
                  routing_table := alSet s.routing_table rte1.addr
                    { cur with metric := RTE.MAX_METRIC, is_garbage := true, changed := true },
                  changed := true } src now rest
            else if cur.metric ≠ rte1.metric then
              Router.update_routing_table
                { s with
                  routing_table := alSet s.routing_table rte1.addr (Router.update_route cur rte1 now),
                  changed := true } src now rest
            else if cur.is_garbage = false then
              Router.update_routing_table
                { s with
                  routing_table := alSet s.routing_table rte1.addr (cur.init_timeout_at now) }
                src now rest
            else
              Router.update_routing_table s src now rest
          else if rte1.metric < cur.metric then
            Router.update_routing_table
              { s with
                routing_table := alSet s.routing_table rte1.addr (Router.update_route cur rte1 now),
                changed := true } src now rest
          else
            Router.update_routing_table s src now rest

/-- The state carried by either outcome of the receive path (`.error`
carries the state at the moment the exception propagates). -/
def excState : Except RouterState RouterState → RouterState
  | .ok s => s
  | .error s => s

/-- One iteration of the receive loop in router.py `Router.handle_inputs`:
`Packet(data = ...)` followed by `update_routing_table`.  A datagram whose
header slice is short raises `struct.error` (and the empty datagram takes
the `_from_host` constructor path and then raises iterating `rtes = None`);
both propagate with the state unchanged, modeled as `.error s`. -/
def Router.process_datagram (s : RouterState) (data : List Nat) (now : Nat) :
    Except RouterState RouterState :=
  match Packet.from_network data now with
  | none => .error s
  | some p => Router.update_routing_table s p.header.src now p.rtes

/-- The receive loop of router.py `Router.handle_inputs` over the datagrams
of the ready ports, stopping at the first propagating exception. -/
def Router.process_all (now : Nat) : RouterState → List (List Nat) → Except RouterState RouterState
  | s, [] => .ok s
  | s, d :: ds =>
    match Router.process_datagram s d now with
    | .ok s1 => Router.process_all now s1 ds
    | .error s1 => .error s1

/-- A `threading.Timer` object for the triggered update: delay, the
callback argument (the collected changed RTEs), and whether `.start()` was
called on it (only a started timer ever fires its callback). -/
structure TriggerTimer where
  delay : Nat
  rtes : List RTE
  started : Bool
  deriving Repr, DecidableEq

/-- router.py `Router.handle_inputs`: process every ready datagram; then,
if the table-level change flag is set, collect the changed RTEs while
clearing their change flags (the collected list holds the same mutated
objects, hence the cleared versions), clear the table-level flag, and build
`threading.Timer(2, self.update, [changed_rtes])`.  The source never calls
`.start()` on that timer, so it is returned with `started := false`. -/
def Router.handle_inputs (s : RouterState) (datagrams : List (List Nat)) (now : Nat) :
    Except RouterState (RouterState × List TriggerTimer) :=
  match Router.process_all now s datagrams with
  | .error s1 => .error s1
  | .ok s1 =>
    if s1.changed then
      let changed_rtes := s1.routing_table.filterMap
        (fun kr => if kr.2.changed then some { kr.2 with changed := false } else none)
      let cleared := s1.routing_table.map
        (fun kr => (kr.1, if kr.2.changed then { kr.2 with changed := false } else kr.2))
      .ok ({ s1 with routing_table := cleared, changed := false },
           [{ delay := 2, rtes := changed_rtes, started := false }])
    else
      .ok (s1, [])

/-- The router state after `handle_inputs`, whether or not an exception
propagated out of it. -/
def Router.receive_state (s : RouterState) (datagrams : List (List Nat)) (now : Nat) : RouterState :=
  match Router.handle_inputs s datagrams now with
  | .ok r => r.1
  | .error s1 => s1

/-- The split-horizon filter loop of router.py `Router.update`: entries
whose `next_hop` is the destination neighbor are replaced by a freshly
constructed RTE with the same `addr` and `next_hop` and `metric = 16`;
every other entry passes through unchanged. -/
def Router.validated_rtes (output : Nat) (now : Nat) (rtes : List RTE) : List RTE :=
  rtes.map (fun entry =>
    if entry.next_hop ≠ output then entry
    else RTE.from_host entry.addr entry.next_hop RTE.MAX_METRIC entry.imported now)

/-- router.py `Router.update`: when the router has input sockets, one
datagram per configured output neighbor, with the local header and the
split-horizon-filtered RTE list.  The result pairs each neighbor id with
the packet sent to its port. -/
def Router.update (s : RouterState) (now : Nat) (rtes : List RTE) : List (Nat × Packet) :=
  if s.hasInputs then
    s.outputs.map (fun o => (o.1, { header := Header.from_host s.id, rtes := Router.validated_rtes o.1 now rtes }))
  else []

/-- The periodic-update timer task (`self.timer(self.update,
param=self.routing_table)`): `Router.update` applied to
`list(self.routing_table.values())`. -/
def Router.periodic_update (s : RouterState) (now : Nat) : List (Nat × Packet) :=
  Router.update s now (s.routing_table.map Prod.snd)

/-- The guard of the loop body of router.py `Router.check_timeout`:
`rte.timeout != None and (now - rte.timeout).total_seconds() >=
ROUTE_TIMEOUT`.  Note there is no liveness check: an entry that is already
garbage also qualifies once its (reset) `timeout` is old enough. -/
def Router.timeout_fires (now : Nat) (r : RTE) : Bool :=
  match r.timeout with
  | some t => decide (Router.ROUTE_TIMEOUT ≤ now - t)
  | none => false

/-- The loop body of router.py `Router.check_timeout` on one RTE: when the
guard fires, mark garbage and changed, set the metric to 16 and reset
`timeout` to now. -/
def Router.timeout_step (now : Nat) (r : RTE) : RTE :=
  if Router.timeout_fires now r then
    { r with is_garbage := true, changed := true, metric := RTE.MAX_METRIC, timeout := some now }
  else r

/-- router.py `Router.check_timeout`: apply `timeout_step` to every RTE of
a nonempty table; the table-level flag is set if any entry fired. -/
def Router.check_timeout (s : RouterState) (now : Nat) : RouterState :=
  if s.routing_table = [] then s
  else
    { s with
      routing_table := s.routing_table.map (fun kr => (kr.1, Router.timeout_step now kr.2)),
      changed := s.changed || s.routing_table.any (fun kr => Router.timeout_fires now kr.2) }

/-- The deletion condition of router.py `Router.check_is_garbage`:
`rte.is_garbage and (now - rte.timeout).total_seconds() >= DELETE_TIMEOUT`.
(A garbage entry with `timeout = None` would raise in the source; it cannot
occur, since only the imported self-entry has `timeout = None` and it is
never garbage; the condition is modeled as false there.) -/
def Router.garbage_expired (now : Nat) (r : RTE) : Bool :=
  r.is_garbage &&
    (match r.timeout with
     | some t => decide (Router.DELETE_TIMEOUT ≤ now - t)
     | none => false)

/-- router.py `Router.check_is_garbage`: delete every garbage RTE whose age
since its `timeout` is at least `DELETE_TIMEOUT` from a nonempty table. -/
def Router.check_is_garbage (s : RouterState) (now : Nat) : RouterState :=
  if s.routing_table = [] then s
  else
    { s with
      routing_table := s.routing_table.filter (fun kr => !Router.garbage_expired now kr.2) }

/-- router.py `Router.__init__`: empty table except the imported self-entry
`RTE(address = self.id, next_hop = 0, metric = 0, imported = True)`, change
flag clear. -/
def Router.init_state (id : Nat) (outputs : List (Nat × Nat)) (hasInputs : Bool) : RouterState :=
  { id := id
    outputs := outputs
    routing_table := [(id, RTE.from_host id 0 0 true 0)]
    changed := false
    hasInputs := hasInputs }

/-!  Basic lemmas about the byte codec and the association-list table. -/

theorem beNat_toBytes2 (n : Nat) : beNat (toBytes2 n) = n := by
  simp only [beNat, toBytes2, List.foldl]
  omega

theorem beNat_toBytes4 (n : Nat) : beNat (toBytes4 n) = n := by
  simp only [beNat, toBytes4, toBytes2, List.cons_append, List.nil_append, List.foldl]
  omega

theorem alGet_map_val {α β : Type} (f : α → β) (t : List (Nat × α)) (a : Nat) :
    alGet (t.map (fun kr => (kr.1, f kr.2))) a = (alGet t a).map f := by
  induction t with
  | nil => rfl
  | cons kr rest ih =>
    by_cases h : kr.1 = a
    · simp [alGet, h]
    · simp [alGet, h, ih]

/-!  Concrete inputs used to exhibit behaviors of the receive path:
router 1 with the single neighbor 2 at link metric 1. -/

/-- Router 1 with neighbor 2 at link metric 1, freshly initialized. -/
def exRouter : RouterState := Router.init_state 1 [(2, 1)] true

/-- A datagram from neighbor 2 advertising destination 3 at wire metric 1
(wire next_hop 0, so the decoded next hop is the sender). -/
def exDatagram : List Nat :=
  [2, 2, 0, 2] ++ [0, 2, 0, 0, 0, 0, 0, 3, 0, 0, 0, 0, 0, 0, 0, 0, 0, 0, 0, 1]

/-- The entry router 1 learns from `exDatagram`: destination 3 via 2 at
metric 2 (after its change flag is cleared by `handle_inputs`). -/
def exLearned : RTE :=
  { afi := 2, tag := 0, addr := 3, mask := 0, next_hop := 2, metric := 2,
    changed := false, imported := false, is_garbage := false, timeout := some 0 }

/-- C1: for a receive that marks an RTE changed, `handle_inputs` does log
and collect the changed RTEs and clear the change flags, but the triggered
update is never emitted: the `threading.Timer(2, self.update,
[changed_rtes])` object it builds is dropped without `.start()`, so its
callback never runs and no datagram is sent.  At the concrete input below
the returned timer list is exactly one unstarted timer. -/
theorem c1_triggered_update_timer_never_started :
    Router.handle_inputs exRouter [exDatagram] 0 =
      .ok ({ id := 1, outputs := [(2, 1)],
             routing_table := [(1, RTE.from_host 1 0 0 true 0), (3, exLearned)],
             changed := false, hasInputs := true },
           [{ delay := 2, rtes := [exLearned], started := false }]) := by
  rfl

/-- A datagram whose header src 9 is not a key of router 1's outputs. -/
def exUnknownSrcDatagram : List Nat :=
  [2, 2, 0, 9] ++ [0, 2, 0, 0, 0, 0, 0, 3, 0, 0, 0, 0, 0, 0, 0, 0, 0, 0, 0, 1]

/-- C2: a datagram from an unknown neighbor is not silently discarded: the
lookup `self.outputs[packet.header.src]` raises `KeyError`, which
propagates out of `update_routing_table` and `handle_inputs` (killing the
router's receive loop); the routing table is left unchanged at the moment
the exception escapes. -/
theorem c2_unknown_src_raises_keyerror :
    Router.process_datagram exRouter exUnknownSrcDatagram 0 = .error exRouter := by
  rfl

/-- A datagram from neighbor 2 advertising the two new destinations 3 and
4, in that wire order. -/
def exTwoNewDatagram : List Nat :=
  [2, 2, 0, 2] ++ [0, 2, 0, 0, 0, 0, 0, 3, 0, 0, 0, 0, 0, 0, 0, 0, 0, 0, 0, 1]
             ++ [0, 2, 0, 0, 0, 0, 0, 4, 0, 0, 0, 0, 0, 0, 0, 0, 0, 0, 0, 1]

/-- The same advertisement of destination 4 alone. -/
def exOnlyFourDatagram : List Nat :=
  [2, 2, 0, 2] ++ [0, 2, 0, 0, 0, 0, 0, 4, 0, 0, 0, 0, 0, 0, 0, 0, 0, 0, 0, 1]

/-- C3 (counterexample): inserting destination 3 stops the processing of
the rest of the datagram: after receiving `exTwoNewDatagram`, destination 4
is absent from the table, although the identical advertisement of 4 on its
own would have been inserted. -/
theorem c3_counterexample_insertion_stops_processing :
    alGet (excState (Router.process_datagram exRouter exTwoNewDatagram 0)).routing_table 4 = none ∧
    alGet (excState (Router.process_datagram exRouter exOnlyFourDatagram 0)).routing_table 4 =
      some { afi := 2, tag := 0, addr := 4, mask := 0, next_hop := 2, metric := 2,
             changed := true, imported := false, is_garbage := false, timeout := some 0 } := by
  exact ⟨rfl, rfl⟩

/-- The route to 3 via 2 at metric 2 that router 1 holds before the poison
report arrives (refreshed at time 0). -/
def exHeld : RTE :=
  { afi := 2, tag := 0, addr := 3, mask := 0, next_hop := 2, metric := 2,
    changed := false, imported := false, is_garbage := false, timeout := some 0 }

/-- Router 1 holding `exHeld` for destination 3. -/
def exRouterWithRoute : RouterState :=
  { exRouter with routing_table := exRouter.routing_table ++ [(3, exHeld)] }

/-- The decoded unreachable report for 3 from neighbor 2, received at
time 5. -/
def exPoisonReport : RTE :=
  { afi := 2, tag := 0, addr := 3, mask := 0, next_hop := 2, metric := 16,
    changed := false, imported := false, is_garbage := false, timeout := some 5 }

/-- C4 (counterexample): the receive-path poisoning transition at time 5
sets metric 16, `is_garbage` and `changed` but leaves `timeout` at its old
value `some 0` instead of setting it to the current time `some 5`. -/
theorem c4_counterexample_poison_keeps_old_timeout :
    alGet (excState (Router.update_routing_table exRouterWithRoute 2 5 [exPoisonReport])).routing_table 3 =
      some { exHeld with metric := 16, is_garbage := true, changed := true } ∧
    ({ exHeld with metric := 16, is_garbage := true, changed := true } : RTE).timeout = some 0 ∧
    some 0 ≠ (some 5 : Option Nat) := by
  exact ⟨rfl, rfl, by decide⟩

/-- C3 (amended): `update_routing_table` applies the receive rules in wire
order, and an RTE matching the router's own id, or one hitting an existing
route, never stops the processing of the remaining RTEs; but an RTE that
takes a new-route outcome (an insertion, or the skip of an
unreachable-from-scratch route) returns immediately, dropping the rest of
the datagram. -/
theorem c3_amended_receive_processing_order (s : RouterState) (src now : Nat) (r : RTE) (rest : List RTE) :
    (r.addr = s.id →
      Router.update_routing_table s src now (r :: rest) =
        Router.update_routing_table s src now rest) ∧
    (∀ link, r.addr ≠ s.id → alGet s.outputs src = some link →
      alGet s.routing_table r.addr = none →
      Router.update_routing_table s src now (r :: rest) =
        Router.update_routing_table s src now [r]) ∧
    (∀ link cur, r.addr ≠ s.id → alGet s.outputs src = some link →
      alGet s.routing_table r.addr = some cur →
      Router.update_routing_table s src now (r :: rest) =
        Router.update_routing_table
          (excState (Router.update_routing_table s src now [r])) src now rest) := by
  refine ⟨fun h => ?_, fun link h1 h2 h3 => ?_, fun link cur h1 h2 h3 => ?_⟩
  · simp [Router.update_routing_table, h]
  · simp [Router.update_routing_table, h1, h2, h3]
  · simp only [Router.update_routing_table, if_neg h1, h2, h3]
    split
    · split
      · simp [excState]
      · split
        · simp [excState]
        · split
          · simp [excState]
          · simp [excState]
    · split
      · simp [excState]
      · simp [excState]

/-- Witness for C3 (amended): new-route processing of destination 3 at
router 1 drops the rest of the datagram, at a concrete input. -/
theorem c3_amended_receive_processing_order_witness :
    Router.update_routing_table exRouter 2 0 [exHeld, exLearned] =
      Router.update_routing_table exRouter 2 0 [exHeld] :=
  (c3_amended_receive_processing_order exRouter 2 0 exHeld [exLearned]).2.1 1
    (by decide) (by rfl) (by rfl)

/-- C4 (amended): a receive-path poisoning transition (unreachable report
from the current next hop) sets metric 16, `is_garbage` and `changed` but
leaves the entry's `timeout` unchanged; `check_timeout` poisons every RTE
with a set `timeout` whose age is at least `ROUTE_TIMEOUT = 30` — with no
liveness check, so an entry that is already garbage is poisoned again — and
only there is `timeout` reset to now. -/
theorem c4_amended_poison_transitions (s : RouterState) (src now : Nat) (r : RTE)
    (rest : List RTE) (link : Nat) (cur : RTE) (s2 : RouterState) (now2 a : Nat) (r2 : RTE) :
    (r.addr ≠ s.id → alGet s.outputs src = some link →
      alGet s.routing_table r.addr = some cur → src = cur.next_hop →
      ¬cur.metric = min (r.metric + link) RTE.MAX_METRIC →
      RTE.MAX_METRIC ≤ min (r.metric + link) RTE.MAX_METRIC →
      Router.update_routing_table s src now (r :: rest) =
        Router.update_routing_table
          { s with
            routing_table := alSet s.routing_table r.addr
              { cur with metric := RTE.MAX_METRIC, is_garbage := true, changed := true },
            changed := true } src now rest) ∧
    (alGet s2.routing_table a = some r2 →
      alGet (Router.check_timeout s2 now2).routing_table a =
        some (if Router.timeout_fires now2 r2 then
                { r2 with is_garbage := true, changed := true, metric := RTE.MAX_METRIC,
                          timeout := some now2 }
              else r2)) ∧
    (Router.timeout_fires now2 r2 = true ↔
      ∃ t, r2.timeout = some t ∧ Router.ROUTE_TIMEOUT ≤ now2 - t) := by
  refine ⟨fun h1 h2 h3 hnh hne hge => ?_, fun h => ?_, ?_⟩
  · simp only [Router.update_routing_table, if_neg h1, h2, h3]
    rw [if_pos hnh, if_pos (And.intro hne hge)]
  · by_cases he : s2.routing_table = []
    · rw [he] at h; simp [alGet] at h
    · simp only [Router.check_timeout, if_neg he]
      rw [alGet_map_val (Router.timeout_step now2), h]
      simp [Router.timeout_step]
  · cases ht : r2.timeout with
    | none => simp [Router.timeout_fires, ht]
    | some t => simp [Router.timeout_fires, ht]

/-- Witness for C4 (amended): the concrete poison report for destination 3
from neighbor 2 at time 5, applied through the theorem. -/
theorem c4_amended_poison_transitions_witness :
    Router.update_routing_table exRouterWithRoute 2 5 [exPoisonReport] =
      Router.update_routing_table
        { exRouterWithRoute with
          routing_table := alSet exRouterWithRoute.routing_table 3
            { exHeld with metric := RTE.MAX_METRIC, is_garbage := true, changed := true },
          changed := true } 2 5 [] :=
  (c4_amended_poison_transitions exRouterWithRoute 2 5 exPoisonReport [] 1 exHeld
      exRouterWithRoute 5 3 exHeld).1
    (by decide) (by rfl) (by rfl) (by rfl) (by decide) (by decide)

/-- The pointwise behavior of the split-horizon filter of `Router.update`
(shared by the emission claims). -/
theorem validated_rtes_forall2 (rtes : List RTE) (nbr now : Nat) :
    List.Forall₂ (fun e e2 =>
        (e.next_hop = nbr → e2.addr = e.addr ∧ e2.next_hop = e.next_hop ∧ e2.metric = RTE.MAX_METRIC) ∧
        (e.next_hop ≠ nbr → e2 = e))
      rtes (Router.validated_rtes nbr now rtes) := by
  induction rtes with
  | nil => exact List.Forall₂.nil
  | cons e es ih =>
    refine List.Forall₂.cons ⟨fun h => ?_, fun h => ?_⟩ ih
    · simp [Router.validated_rtes, h, RTE.from_host]
    · simp [Router.validated_rtes, h]

/-- C6: the datagram body built for neighbor `nbr` has one RTE per
candidate; a candidate whose `next_hop` is `nbr` is replaced by an RTE with
the same `addr` and `next_hop` and metric 16, every other candidate passes
through unchanged, and consequently no emitted RTE with metric below 16 has
`next_hop = nbr`. -/
theorem c6_split_horizon_poisoned_reverse (rtes : List RTE) (nbr now : Nat) :
    List.Forall₂ (fun e e2 =>
        (e.next_hop = nbr → e2.addr = e.addr ∧ e2.next_hop = e.next_hop ∧ e2.metric = RTE.MAX_METRIC) ∧
        (e.next_hop ≠ nbr → e2 = e))
      rtes (Router.validated_rtes nbr now rtes) ∧
    ∀ e2 ∈ Router.validated_rtes nbr now rtes, e2.metric < RTE.MAX_METRIC → e2.next_hop ≠ nbr := by
  constructor
  · exact validated_rtes_forall2 rtes nbr now
  · intro e2 hmem hlt
    rcases List.mem_map.mp hmem with ⟨e, _, he⟩
    by_cases h : e.next_hop = nbr
    · rw [← he]
      simp only [h, ne_eq, not_true_eq_false, if_false, RTE.from_host]
      rw [← he] at hlt
      simp only [h, ne_eq, not_true_eq_false, if_false, RTE.from_host] at hlt
      exact absurd hlt (by simp)
    · rw [← he]
      simp [h]

/-!  Length and success lemmas for the wire codec. -/

theorem rte_serialize_length (r : RTE) (b : List Nat) (h : r.serialize = some b) :
    b.length = RTE.SIZE := by
  unfold RTE.serialize at h
  split at h
  · simp only [Option.some.injEq] at h
    subst h
    simp [toBytes2, toBytes4, RTE.SIZE]
  · exact absurd h (by simp)

theorem header_serialize_length (h : Header) (b : List Nat) (hs : h.serialize = some b) :
    b.length = Header.SIZE := by
  unfold Header.serialize at hs
  split at hs
  · simp only [Option.some.injEq] at hs
    subst hs
    simp [toBytes2, Header.SIZE]
  · exact absurd hs (by simp)

theorem serializeRtes_length : ∀ (rl : List RTE) (bs : List Nat),
    serializeRtes rl = some bs → bs.length = RTE.SIZE * rl.length := by
  intro rl
  induction rl with
  | nil =>
    intro bs h
    simp only [serializeRtes, Option.some.injEq] at h
    subst h
    rfl
  | cons r rs ih =>
    intro bs h
    unfold serializeRtes at h
    cases hr : r.serialize with
    | none => rw [hr] at h; exact absurd h (by simp)
    | some b =>
      cases hs : serializeRtes rs with
      | none => rw [hr, hs] at h; exact absurd h (by simp)
      | some bs2 =>
        rw [hr, hs] at h
        simp only [Option.some.injEq] at h
        subst h
        have h1 := rte_serialize_length r b hr
        have h2 := ih bs2 hs
        simp only [List.length_append, h1, h2, List.length_cons, RTE.SIZE]
        ring

theorem decodeRtes_some : ∀ (k : Nat) (rest : List Nat) (src now : Nat),
    20 * k ≤ rest.length →
    ∃ rs, decodeRtes k rest src now = some rs ∧ rs.length = k := by
  intro k
  induction k with
  | zero => exact fun rest src now _ => ⟨[], rfl, rfl⟩
  | succ n ih =>
    intro rest src now h
    have h20 : (rest.take 20).length = 20 := by
      simp only [List.length_take]
      omega
    have hrs : (RTE.from_network (rest.take 20) src now).isSome := by
      unfold RTE.from_network
      rw [if_pos h20]
      rfl
    obtain ⟨r, hr⟩ := Option.isSome_iff_exists.mp hrs
    obtain ⟨rs, hs, hlen⟩ := ih (rest.drop 20) src now (by simp only [List.length_drop]; omega)
    refine ⟨r :: rs, ?_, by simp [hlen]⟩
    unfold decodeRtes
    rw [hr, hs]

theorem decodeRtes_length : ∀ (k : Nat) (rest : List Nat) (src now : Nat) (rs : List RTE),
    decodeRtes k rest src now = some rs → rs.length = k := by
  intro k
  induction k with
  | zero =>
    intro rest src now rs h
    simp only [decodeRtes, Option.some.injEq] at h
    subst h
    rfl
  | succ n ih =>
    intro rest src now rs h
    unfold decodeRtes at h
    cases h1 : RTE.from_network (rest.take 20) src now with
    | none => rw [h1] at h; exact absurd h (by simp)
    | some r =>
      cases h2 : decodeRtes n (rest.drop 20) src now with
      | none => rw [h1, h2] at h; exact absurd h (by simp)
      | some rs2 =>
        rw [h1, h2] at h
        simp only [Option.some.injEq] at h
        subst h
        simp [ih _ _ _ _ h2]

/-!  Round-trip lemmas for the wire codec. -/

theorem rte_from_network_concat (a t ad m nh me src now : Nat) :
    RTE.from_network (toBytes2 a ++ toBytes2 t ++ toBytes4 ad ++ toBytes4 m ++
        toBytes4 nh ++ toBytes4 me) src now =
      some { afi := a, tag := t, addr := ad, mask := m,
             next_hop := if nh = 0 then src else nh, metric := me,
             changed := false, imported := false, is_garbage := false, timeout := some now } := by
  have e : RTE.from_network (toBytes2 a ++ toBytes2 t ++ toBytes4 ad ++ toBytes4 m ++
      toBytes4 nh ++ toBytes4 me) src now =
      some { afi := beNat (toBytes2 a), tag := beNat (toBytes2 t), addr := beNat (toBytes4 ad),
             mask := beNat (toBytes4 m),
             next_hop := if beNat (toBytes4 nh) = 0 then src else beNat (toBytes4 nh),
             metric := beNat (toBytes4 me),
             changed := false, imported := false, is_garbage := false, timeout := some now } := rfl
  rw [e]
  simp [beNat_toBytes2, beNat_toBytes4]

/-- A concrete misaligned datagram: 5 bytes, which is not of the form
`4 + 20 * k`. -/
def exMisaligned : List Nat := [2, 2, 0, 7, 0]

/-- C7 (counterexample): decoding does not fail on every length that is
not `4 + 20·k`: the 5-byte string `exMisaligned` (whose length is ≢ 4
mod 20, hence not of that form) decodes successfully to a packet with
header src 7 and zero RTEs, the trailing byte silently ignored. -/
theorem c7_counterexample_decode_accepts_misaligned :
    exMisaligned.length % 20 ≠ Header.SIZE % 20 ∧
    (¬∃ k, exMisaligned.length = Header.SIZE + RTE.SIZE * k) ∧
    Packet.from_network exMisaligned 0 =
      some { header := { cmd := 2, ver := 2, src := 7 }, rtes := [] } := by
  refine ⟨by decide, ?_, rfl⟩
  rintro ⟨k, hk⟩
  simp only [exMisaligned, Header.SIZE, RTE.SIZE, List.length_cons, List.length_nil] at hk
  omega

/-- C7 (amended): serializing a packet with `k` RTEs yields exactly
`4 + 20·k` bytes; but `_from_network` decoding fails exactly when the
input is shorter than the 4-byte header, and for any length ≥ 4 it
succeeds, parsing `(length - 4) / 20` RTEs and silently ignoring up to 19
trailing bytes. -/
theorem c7_amended_wire_size_and_decode (h : Header) (rl : List RTE)
    (bytes data : List Nat) (now : Nat) (p : Packet) :
    (Packet.serialize { header := h, rtes := rl } = some bytes →
      bytes.length = Header.SIZE + RTE.SIZE * rl.length) ∧
    ((Packet.from_network data now).isSome ↔ Header.SIZE ≤ data.length) ∧
    (Packet.from_network data now = some p →
      p.rtes.length = (data.length - Header.SIZE) / RTE.SIZE) := by
  refine ⟨fun hs => ?_, ⟨fun hs => ?_, fun hge => ?_⟩, fun hd => ?_⟩
  · unfold Packet.serialize at hs
    cases hh : Header.serialize h with
    | none => rw [hh] at hs; exact absurd hs (by simp)
    | some hb =>
      cases hr : serializeRtes rl with
      | none => rw [hh, hr] at hs; exact absurd hs (by simp)
      | some rb =>
        rw [hh, hr] at hs
        simp only [Option.some.injEq] at hs
        subst hs
        simp [List.length_append, header_serialize_length h hb hh, serializeRtes_length rl rb hr]
  · unfold Packet.from_network at hs
    cases hh : Header.from_network (data.take 4) with
    | none => rw [hh] at hs; simp at hs
    | some hd =>
      unfold Header.from_network at hh
      split at hh
      · next hlen =>
        simp only [List.length_take] at hlen
        simp only [Header.SIZE]
        omega
      · exact absurd hh (by simp)
  · have hlen4 : (data.take 4).length = 4 := by
      simp only [List.length_take]
      simp only [Header.SIZE] at hge
      omega
    have hh : (Header.from_network (data.take 4)).isSome := by
      unfold Header.from_network
      rw [if_pos hlen4]
      rfl
    obtain ⟨hdr, hhdr⟩ := Option.isSome_iff_exists.mp hh
    obtain ⟨rs, hrs, _⟩ := decodeRtes_some ((data.length - 4) / 20) (data.drop 4) hdr.src now
      (by simp only [List.length_drop]
          have := Nat.div_mul_le_self (data.length - 4) 20
          omega)
    simp [Packet.from_network, hhdr, hrs]
  · unfold Packet.from_network at hd
    split at hd
    · exact absurd hd (by simp)
    · split at hd
      · exact absurd hd (by simp)
      · next hdr hh rs hr =>
        simp only [Option.some.injEq] at hd
        subst hd
        simpa [Header.SIZE, RTE.SIZE] using decodeRtes_length _ _ _ _ _ hr

/-- The wire bytes of `exHeld` (afi 2, tag 0, addr 3, mask 0, next hop 2,
metric 2). -/
def exHeldBytes : List Nat :=
  [0, 2, 0, 0, 0, 0, 0, 3, 0, 0, 0, 0, 0, 0, 0, 2, 0, 0, 0, 2]

/-- Witness for C7 (amended): at the concrete packet with header src 1 and
the single RTE `exHeld`, and the concrete misaligned 5-byte input. -/
theorem c7_amended_wire_size_and_decode_witness :
    ([2, 2, 0, 1] ++ exHeldBytes).length = Header.SIZE + RTE.SIZE * [exHeld].length ∧
    (Packet.from_network exMisaligned 0 =
        some { header := { cmd := 2, ver := 2, src := 7 }, rtes := [] } →
      ([] : List RTE).length = (exMisaligned.length - Header.SIZE) / RTE.SIZE) :=
  ⟨(c7_amended_wire_size_and_decode (Header.from_host 1) [exHeld]
      ([2, 2, 0, 1] ++ exHeldBytes) exMisaligned 0
      { header := { cmd := 2, ver := 2, src := 7 }, rtes := [] }).1 (by rfl),
   fun h => (c7_amended_wire_size_and_decode (Header.from_host 1) [exHeld]
      ([2, 2, 0, 1] ++ exHeldBytes) exMisaligned 0
      { header := { cmd := 2, ver := 2, src := 7 }, rtes := [] }).2.2 h⟩

/-- The wire bytes of the self-entry of router 1 (next hop 0). -/
def exSelfBytes : List Nat :=
  [0, 2, 0, 0, 0, 0, 0, 1, 0, 0, 0, 0, 0, 0, 0, 0, 0, 0, 0, 0]

/-- C8 (counterexample): the round trip is not the identity for every
decode-time sender id: the locally constructed self-entry of router 1 has
`next_hop = 0`, and decoding its serialization with sender id 7 yields
`next_hop = 7`, so the decoded RTE differs from the original on a wire
field. -/
theorem c8_counterexample_zero_next_hop_rewritten :
    (RTE.from_host 1 0 0 true 0).serialize = some exSelfBytes ∧
    RTE.from_network exSelfBytes 7 0 =
      some { afi := 2, tag := 0, addr := 1, mask := 0, next_hop := 7, metric := 0,
             changed := false, imported := false, is_garbage := false, timeout := some 0 } ∧
    (RTE.from_host 1 0 0 true 0).next_hop ≠ 7 := by
  exact ⟨rfl, rfl, by decide⟩

/-- C8 (amended): decoding the 20-byte serialization of a locally
constructed RTE restores `afi`, `tag`, `addr`, `mask` and `metric`
exactly; `next_hop` is restored when it is nonzero, and is otherwise
replaced by the decode-time sender id.  The header round trip restores
`cmd`, `ver` and `src` exactly. -/
theorem c8_amended_roundtrip (r : RTE) (bytes : List Nat) (s now : Nat)
    (hd : Header) (hb : List Nat) :
    (RTE.serialize r = some bytes →
      RTE.from_network bytes s now =
        some { afi := r.afi, tag := r.tag, addr := r.addr, mask := r.mask,
               next_hop := if r.next_hop = 0 then s else r.next_hop, metric := r.metric,
               changed := false, imported := false, is_garbage := false,
               timeout := some now }) ∧
    (Header.serialize hd = some hb → Header.from_network hb = some hd) := by
  constructor
  · intro hs
    unfold RTE.serialize at hs
    split at hs
    · simp only [Option.some.injEq] at hs
      subst hs
      exact rte_from_network_concat r.afi r.tag r.addr r.mask r.next_hop r.metric s now
    · exact absurd hs (by simp)
  · intro hs
    unfold Header.serialize at hs
    split at hs
    · simp only [Option.some.injEq] at hs
      subst hs
      have e : Header.from_network ([hd.cmd, hd.ver] ++ toBytes2 hd.src) =
          some { cmd := beNat [hd.cmd], ver := beNat [hd.ver], src := beNat (toBytes2 hd.src) } := rfl
      rw [e, beNat_toBytes2]
      simp [beNat]
    · exact absurd hs (by simp)

/-- Witness for C8 (amended): the concrete RTE `exHeld` decoded with
sender id 9, and the concrete header of router 1. -/
theorem c8_amended_roundtrip_witness :
    RTE.from_network exHeldBytes 9 4 =
      some { afi := 2, tag := 0, addr := 3, mask := 0, next_hop := 2, metric := 2,
             changed := false, imported := false, is_garbage := false, timeout := some 4 } ∧
    Header.from_network [2, 2, 0, 1] = some (Header.from_host 1) :=
  ⟨(c8_amended_roundtrip exHeld exHeldBytes 9 4 (Header.from_host 1) [2, 2, 0, 1]).1 (by rfl),
   (c8_amended_roundtrip exHeld exHeldBytes 9 4 (Header.from_host 1) [2, 2, 0, 1]).2 (by rfl)⟩

/-!  Association-list lemmas for the routing table. -/

theorem alGet_mem {α : Type} : ∀ (t : List (Nat × α)) (a : Nat) (v : α),
    alGet t a = some v → (a, v) ∈ t := by
  intro t
  induction t with
  | nil => intro a v h; exact absurd h (by simp [alGet])
  | cons kr rest ih =>
    intro a v h
    rw [show kr = (kr.1, kr.2) from rfl] at h ⊢
    unfold alGet at h
    by_cases hk : kr.1 = a
    · rw [if_pos hk] at h
      simp only [Option.some.injEq] at h
      subst h
      subst hk
      exact List.mem_cons_self _ _
    · rw [if_neg hk] at h
      exact List.mem_cons_of_mem _ (ih a v h)

theorem alGet_alSet {α : Type} : ∀ (t : List (Nat × α)) (a b : Nat) (v : α),
    alGet (alSet t a v) b = if b = a then some v else alGet t b := by
  intro t
  induction t with
  | nil =>
    intro a b v
    by_cases hb : b = a
    · subst hb; simp [alSet, alGet]
    · have hab : ¬a = b := fun h => hb h.symm
      simp [alSet, alGet, hb, hab]
  | cons kr rest ih =>
    intro a b v
    rw [show kr = (kr.1, kr.2) from rfl]
    unfold alSet
    by_cases hk : kr.1 = a
    · subst hk
      rw [if_pos rfl]
      by_cases hb : b = kr.1
      · subst hb; simp [alGet]
      · have h2 : ¬kr.1 = b := fun h => hb h.symm
        simp [alGet, hb, h2]
    · rw [if_neg hk]
      by_cases hkb : kr.1 = b
      · subst hkb
        simp [alGet, hk]
      · simp [alGet, hkb, ih a b v]

theorem mem_keys_alSet {α : Type} : ∀ (t : List (Nat × α)) (a b : Nat) (v : α),
    b ∈ (alSet t a v).map Prod.fst ↔ b ∈ t.map Prod.fst ∨ b = a := by
  intro t
  induction t with
  | nil => intro a b v; simp [alSet]
  | cons kr rest ih =>
    intro a b v
    rw [show kr = (kr.1, kr.2) from rfl]
    unfold alSet
    by_cases hk : kr.1 = a
    · rw [if_pos hk]
      subst hk
      simp only [List.map_cons, List.mem_cons]
      tauto
    · rw [if_neg hk]
      simp only [List.map_cons, List.mem_cons, ih a b v]
      tauto

theorem keys_nodup_alSet {α : Type} : ∀ (t : List (Nat × α)) (a : Nat) (v : α),
    (t.map Prod.fst).Nodup → ((alSet t a v).map Prod.fst).Nodup := by
  intro t
  induction t with
  | nil => intro a v _; simp [alSet]
  | cons kr rest ih =>
    intro a v hnd
    rw [show kr = (kr.1, kr.2) from rfl]
    unfold alSet
    simp only [List.map_cons, List.nodup_cons] at hnd
    by_cases hk : kr.1 = a
    · rw [if_pos hk]
      subst hk
      simp only [List.map_cons, List.nodup_cons]
      exact hnd
    · rw [if_neg hk]
      simp only [List.map_cons, List.nodup_cons]
      refine ⟨?_, ih a v hnd.2⟩
      rw [mem_keys_alSet]
      rintro (h | h)
      · exact hnd.1 h
      · exact hk h

theorem addr_wf_alSet : ∀ (t : List (Nat × RTE)) (a : Nat) (v : RTE),
    (∀ kr ∈ t, (Prod.snd kr).addr = Prod.fst kr) → v.addr = a →
    ∀ kr ∈ alSet t a v, (Prod.snd kr).addr = Prod.fst kr := by
  intro t
  induction t with
  | nil =>
    intro a v _ hv kr hkr
    simp only [alSet, List.mem_singleton] at hkr
    subst hkr
    exact hv
  | cons kw rest ih =>
    intro a v hwf hv kr hkr
    rw [show kw = (kw.1, kw.2) from rfl] at hkr
    unfold alSet at hkr
    by_cases hk : kw.1 = a
    · rw [if_pos hk] at hkr
      rcases List.mem_cons.mp hkr with h | h
      · subst h; exact hv
      · exact hwf _ (List.mem_cons_of_mem _ h)
    · rw [if_neg hk] at hkr
      rcases List.mem_cons.mp hkr with h | h
      · subst h; exact hwf _ (List.mem_cons_self _ _)
      · exact ih a v (fun kr2 hkr2 => hwf _ (List.mem_cons_of_mem _ hkr2)) hv kr h

theorem alGet_filter {α : Type} (q : Nat × α → Bool) : ∀ (t : List (Nat × α)) (a : Nat) (v : α),
    alGet t a = some v → q (a, v) = true → alGet (t.filter q) a = some v := by
  intro t
  induction t with
  | nil => intro a v h; exact absurd h (by simp [alGet])
  | cons kw rest ih =>
    intro a v h hq
    rw [show kw = (kw.1, kw.2) from rfl] at h ⊢
    unfold alGet at h
    by_cases hk : kw.1 = a
    · rw [if_pos hk] at h
      simp only [Option.some.injEq] at h
      subst h
      subst hk
      rw [List.filter_cons, if_pos hq]
      simp [alGet]
    · rw [if_neg hk] at h
      rw [List.filter_cons]
      by_cases hq2 : q (kw.1, kw.2) = true
      · rw [if_pos hq2]
        unfold alGet
        rw [if_neg hk]
        exact ih a v h hq
      · rw [if_neg hq2]
        exact ih a v h hq

theorem filter_key_nil {α : Type} : ∀ (t : List (Nat × α)) (a : Nat),
    a ∉ t.map Prod.fst → t.filter (fun kr => kr.1 == a) = [] := by
  intro t
  induction t with
  | nil => intro a _; rfl
  | cons kw rest ih =>
    intro a hmem
    simp only [List.map_cons, List.mem_cons, not_or] at hmem
    rw [List.filter_cons, if_neg (by simp only [beq_iff_eq]; exact fun h => hmem.1 h.symm)]
    exact ih a hmem.2

theorem filter_key_length_one : ∀ (t : List (Nat × RTE)) (a : Nat),
    (t.map Prod.fst).Nodup → a ∈ t.map Prod.fst →
    (t.filter (fun kr => kr.1 == a)).length = 1 := by
  intro t
  induction t with
  | nil => intro a _ h; simp at h
  | cons kw rest ih =>
    intro a hnd hmem
    simp only [List.map_cons, List.nodup_cons] at hnd
    rw [List.filter_cons]
    by_cases hk : kw.1 = a
    · rw [if_pos (by simp [hk])]
      subst hk
      rw [filter_key_nil rest kw.1 hnd.1]
      rfl
    · rw [if_neg (by simp [hk])]
      rcases List.mem_cons.mp hmem with h | h
      · exact absurd h.symm hk
      · exact ih a hnd.2 h

/-!  The self-entry invariant (C5). -/

/-- Well-formedness of the routing table as a Python dict: keys are unique
and every stored RTE's `addr` equals its key. -/
def TableWF (t : List (Nat × RTE)) : Prop :=
  (t.map Prod.fst).Nodup ∧ ∀ kr ∈ t, (Prod.snd kr).addr = Prod.fst kr

/-- The state invariant of C5: a well-formed table holding, at the
router's own id, an imported self-entry with next hop 0, metric 0, never
changed, never garbage, never timed out. -/
def SelfInvariant (s : RouterState) : Prop :=
  TableWF s.routing_table ∧
  ∃ r, alGet s.routing_table s.id = some r ∧ r.next_hop = 0 ∧ r.metric = 0 ∧
    r.imported = true ∧ r.changed = false ∧ r.is_garbage = false ∧ r.timeout = none

/-- The number of table entries whose RTE has the router's own id as its
destination address. -/
def countSelf (s : RouterState) : Nat :=
  (s.routing_table.filter (fun kr => kr.2.addr == s.id)).length

theorem countSelf_eq_one (s : RouterState) (h : SelfInvariant s) : countSelf s = 1 := by
  obtain ⟨⟨hnd, haddr⟩, r, hget, _⟩ := h
  unfold countSelf
  have hfe : s.routing_table.filter (fun kr => kr.2.addr == s.id) =
      s.routing_table.filter (fun kr => kr.1 == s.id) := by
    apply List.filter_congr
    intro kr hkr
    simp only [beq_iff_eq, haddr kr hkr]
  rw [hfe]
  apply filter_key_length_one _ _ hnd
  exact List.mem_map_of_mem Prod.fst (alGet_mem _ _ _ hget)

theorem TableWF_alSet (t : List (Nat × RTE)) (a : Nat) (v : RTE)
    (h : TableWF t) (hv : v.addr = a) : TableWF (alSet t a v) :=
  ⟨keys_nodup_alSet t a v h.1, addr_wf_alSet t a v h.2 hv⟩

theorem SelfInvariant_alSet (s : RouterState) (a : Nat) (v : RTE) (c : Bool)
    (h : SelfInvariant s) (ha : a ≠ s.id) (hv : v.addr = a) :
    SelfInvariant { s with routing_table := alSet s.routing_table a v, changed := c } := by
  obtain ⟨hwf, r, hget, hprops⟩ := h
  refine ⟨TableWF_alSet _ _ _ hwf hv, r, ?_, hprops⟩
  show alGet (alSet s.routing_table a v) s.id = some r
  rw [alGet_alSet, if_neg (fun h2 : s.id = a => ha h2.symm)]
  exact hget

/-- The state after the existing-route branches of `update_routing_table`
process one received RTE `r` against the current entry `cur` (a helper for
the step lemmas; `update_routing_table_cons_existing` proves it agrees
with the source function). -/
def Router.existing_step (s : RouterState) (src now : Nat) (r cur : RTE) (link : Nat) : RouterState :=
  if src = cur.next_hop then
    if cur.metric ≠ min (r.metric + link) RTE.MAX_METRIC ∧
       RTE.MAX_METRIC ≤ min (r.metric + link) RTE.MAX_METRIC then
      { s with
        routing_table := alSet s.routing_table r.addr
          { cur with metric := RTE.MAX_METRIC, is_garbage := true, changed := true },
        changed := true }
    else if cur.metric ≠ min (r.metric + link) RTE.MAX_METRIC then
      { s with
        routing_table := alSet s.routing_table r.addr
          (Router.update_route cur
            { r with next_hop := src, metric := min (r.metric + link) RTE.MAX_METRIC } now),
        changed := true }
    else if cur.is_garbage = false then
      { s with routing_table := alSet s.routing_table r.addr (cur.init_timeout_at now) }
    else s
  else if min (r.metric + link) RTE.MAX_METRIC < cur.metric then
    { s with
      routing_table := alSet s.routing_table r.addr
        (Router.update_route cur
          { r with next_hop := src, metric := min (r.metric + link) RTE.MAX_METRIC } now),
      changed := true }
  else s

theorem update_routing_table_cons_self (s : RouterState) (src now : Nat) (r : RTE)
    (rest : List RTE) (h : r.addr = s.id) :
    Router.update_routing_table s src now (r :: rest) =
      Router.update_routing_table s src now rest := by
  simp [Router.update_routing_table, h]

theorem update_routing_table_cons_nolink (s : RouterState) (src now : Nat) (r : RTE)
    (rest : List RTE) (h : r.addr ≠ s.id) (h2 : alGet s.outputs src = none) :
    Router.update_routing_table s src now (r :: rest) = .error s := by
  simp [Router.update_routing_table, h, h2]

theorem update_routing_table_cons_new (s : RouterState) (src now : Nat) (r : RTE)
    (rest : List RTE) (link : Nat) (h : r.addr ≠ s.id) (h2 : alGet s.outputs src = some link)
    (h3 : alGet s.routing_table r.addr = none) :
    Router.update_routing_table s src now (r :: rest) =
      if min (r.metric + link) RTE.MAX_METRIC = RTE.MAX_METRIC then .ok s
      else .ok { s with
        routing_table := alSet s.routing_table r.addr
          { r with next_hop := src, metric := min (r.metric + link) RTE.MAX_METRIC,
                   changed := true },
        changed := true } := by
  simp [Router.update_routing_table, h, h2, h3]

theorem update_routing_table_cons_existing (s : RouterState) (src now : Nat) (r : RTE)
    (rest : List RTE) (cur : RTE) (link : Nat) (h : r.addr ≠ s.id)
    (h2 : alGet s.outputs src = some link) (h3 : alGet s.routing_table r.addr = some cur) :
    Router.update_routing_table s src now (r :: rest) =
      Router.update_routing_table (Router.existing_step s src now r cur link) src now rest := by
  simp only [Router.update_routing_table, if_neg h, h2, h3, Router.existing_step]
  split
  · split
    · rfl
    · split
      · rfl
      · split
        · rfl
        · rfl
  · split
    · rfl
    · rfl

theorem timeout_step_addr (now : Nat) (v : RTE) : (Router.timeout_step now v).addr = v.addr := by
  unfold Router.timeout_step
  split
  · rfl
  · rfl

theorem existing_step_inv (s : RouterState) (src now : Nat) (r cur : RTE) (link : Nat)
    (h : SelfInvariant s) (ha : r.addr ≠ s.id) (h3 : alGet s.routing_table r.addr = some cur) :
    SelfInvariant (Router.existing_step s src now r cur link) ∧
    (Router.existing_step s src now r cur link).id = s.id := by
  have hcur : cur.addr = r.addr := h.1.2 _ (alGet_mem _ _ _ h3)
  unfold Router.existing_step
  split
  · split
    · exact ⟨SelfInvariant_alSet s r.addr _ true h ha hcur, rfl⟩
    · split
      · exact ⟨SelfInvariant_alSet s r.addr _ true h ha hcur, rfl⟩
      · split
        · exact ⟨SelfInvariant_alSet s r.addr _ s.changed h ha hcur, rfl⟩
        · exact ⟨h, rfl⟩
  · split
    · exact ⟨SelfInvariant_alSet s r.addr _ true h ha hcur, rfl⟩
    · exact ⟨h, rfl⟩

theorem update_routing_table_inv : ∀ (l : List RTE) (s : RouterState) (src now : Nat),
    SelfInvariant s →
    SelfInvariant (excState (Router.update_routing_table s src now l)) ∧
    (excState (Router.update_routing_table s src now l)).id = s.id := by
  intro l
  induction l with
  | nil => exact fun s src now h => ⟨h, rfl⟩
  | cons r rest ih =>
    intro s src now h
    by_cases hid : r.addr = s.id
    · rw [update_routing_table_cons_self s src now r rest hid]
      exact ih s src now h
    · cases hout : alGet s.outputs src with
      | none =>
        rw [update_routing_table_cons_nolink s src now r rest hid hout]
        exact ⟨h, rfl⟩
      | some link =>
        cases hcur : alGet s.routing_table r.addr with
        | none =>
          rw [update_routing_table_cons_new s src now r rest link hid hout hcur]
          by_cases hm : min (r.metric + link) RTE.MAX_METRIC = RTE.MAX_METRIC
          · rw [if_pos hm]
            exact ⟨h, rfl⟩
          · rw [if_neg hm]
            exact ⟨SelfInvariant_alSet s r.addr _ true h hid rfl, rfl⟩
        | some cur =>
          rw [update_routing_table_cons_existing s src now r rest cur link hid hout hcur]
          obtain ⟨hinv, hid2⟩ := existing_step_inv s src now r cur link h hid hcur
          obtain ⟨h1, h2⟩ := ih (Router.existing_step s src now r cur link) src now hinv
          exact ⟨h1, h2.trans hid2⟩

theorem process_datagram_inv (s : RouterState) (d : List Nat) (now : Nat)
    (h : SelfInvariant s) :
    SelfInvariant (excState (Router.process_datagram s d now)) ∧
    (excState (Router.process_datagram s d now)).id = s.id := by
  unfold Router.process_datagram
  cases hp : Packet.from_network d now with
  | none => exact ⟨h, rfl⟩
  | some p => exact update_routing_table_inv p.rtes s p.header.src now h

theorem process_all_inv : ∀ (ds : List (List Nat)) (s : RouterState) (now : Nat),
    SelfInvariant s →
    SelfInvariant (excState (Router.process_all now s ds)) ∧
    (excState (Router.process_all now s ds)).id = s.id := by
  intro ds
  induction ds with
  | nil => exact fun s now h => ⟨h, rfl⟩
  | cons d ds ih =>
    intro s now h
    have hd := process_datagram_inv s d now h
    cases hp : Router.process_datagram s d now with
    | ok s1 =>
      rw [hp] at hd
      simp only [Router.process_all, hp]
      obtain ⟨h1, h2⟩ := ih s1 now hd.1
      exact ⟨h1, h2.trans hd.2⟩
    | error s1 =>
      rw [hp] at hd
      simp only [Router.process_all, hp]
      exact hd

theorem SelfInvariant_clear_changed (s : RouterState) (h : SelfInvariant s) :
    SelfInvariant { s with
      routing_table := s.routing_table.map
        (fun kr => (kr.1, if kr.2.changed then { kr.2 with changed := false } else kr.2)),
      changed := false } := by
  obtain ⟨⟨hnd, haddr⟩, r, hget, hnh, hm, him, hch, hg, hto⟩ := h
  refine ⟨⟨?_, ?_⟩, r, ?_, hnh, hm, him, hch, hg, hto⟩
  · show ((s.routing_table.map _).map Prod.fst).Nodup
    rw [List.map_map]
    have he : (Prod.fst ∘ fun kr : Nat × RTE =>
        (kr.1, if kr.2.changed then { kr.2 with changed := false } else kr.2)) = Prod.fst := by
      funext kr
      rfl
    rw [he]
    exact hnd
  · intro kr hkr
    rcases List.mem_map.mp hkr with ⟨kr0, hkr0, hkr0e⟩
    subst hkr0e
    by_cases hc : kr0.2.changed
    · simp [hc, haddr kr0 hkr0]
    · simp [hc, haddr kr0 hkr0]
  · show alGet (s.routing_table.map _) s.id = some r
    rw [alGet_map_val (fun v : RTE => if v.changed then { v with changed := false } else v), hget]
    simp [hch]

theorem receive_state_inv (s : RouterState) (ds : List (List Nat)) (now : Nat)
    (h : SelfInvariant s) :
    SelfInvariant (Router.receive_state s ds now) ∧
    (Router.receive_state s ds now).id = s.id := by
  have hp2 := process_all_inv ds s now h
  unfold Router.receive_state Router.handle_inputs
  cases hp : Router.process_all now s ds with
  | error s1 =>
    rw [hp] at hp2
    exact hp2
  | ok s1 =>
    rw [hp] at hp2
    by_cases hc : s1.changed
    · simp only [hc, if_true]
      exact ⟨SelfInvariant_clear_changed s1 hp2.1, hp2.2⟩
    · simp only [hc, if_false]
      exact hp2

theorem check_timeout_inv (s : RouterState) (now : Nat) (h : SelfInvariant s) :
    SelfInvariant (Router.check_timeout s now) ∧ (Router.check_timeout s now).id = s.id := by
  unfold Router.check_timeout
  by_cases he : s.routing_table = []
  · rw [if_pos he]
    exact ⟨h, rfl⟩
  · rw [if_neg he]
    obtain ⟨⟨hnd, haddr⟩, r, hget, hnh, hm, him, hch, hg, hto⟩ := h
    refine ⟨⟨⟨?_, ?_⟩, r, ?_, hnh, hm, him, hch, hg, hto⟩, rfl⟩
    · show ((s.routing_table.map _).map Prod.fst).Nodup
      rw [List.map_map]
      have he2 : (Prod.fst ∘ fun kr : Nat × RTE => (kr.1, Router.timeout_step now kr.2)) =
          Prod.fst := by
        funext kr
        rfl
      rw [he2]
      exact hnd
    · intro kr hkr
      rcases List.mem_map.mp hkr with ⟨kr0, hkr0, hkr0e⟩
      subst hkr0e
      show (Router.timeout_step now kr0.2).addr = kr0.1
      rw [timeout_step_addr, haddr kr0 hkr0]
    · show alGet (s.routing_table.map _) s.id = some r
      rw [alGet_map_val (Router.timeout_step now), hget]
      simp [Router.timeout_step, Router.timeout_fires, hto]

theorem check_is_garbage_inv (s : RouterState) (now : Nat) (h : SelfInvariant s) :
    SelfInvariant (Router.check_is_garbage s now) ∧
    (Router.check_is_garbage s now).id = s.id := by
  unfold Router.check_is_garbage
  by_cases he : s.routing_table = []
  · rw [if_pos he]
    exact ⟨h, rfl⟩
  · rw [if_neg he]
    obtain ⟨⟨hnd, haddr⟩, r, hget, hnh, hm, him, hch, hg, hto⟩ := h
    refine ⟨⟨⟨?_, ?_⟩, r, ?_, hnh, hm, him, hch, hg, hto⟩, rfl⟩
    · exact ((List.filter_sublist _).map Prod.fst).nodup hnd
    · exact fun kr hkr => haddr kr (List.mem_of_mem_filter hkr)
    · show alGet (s.routing_table.filter _) s.id = some r
      exact alGet_filter _ _ _ _ hget (by simp [Router.garbage_expired, hg])

/-- C5: every receive (`handle_inputs`, whether or not it ends in a
propagating exception) and every timer tick (`check_timeout`,
`check_is_garbage`) preserves the self-entry invariant: the table holds
exactly one entry whose addr is the router's own id, and that entry has
next hop 0, metric 0, is imported, and is never changed, garbage or timed
out — and it is never deleted. -/
theorem c5_self_entry_invariant (s : RouterState) (ds : List (List Nat)) (nr nt ng : Nat)
    (h : SelfInvariant s) :
    (SelfInvariant (Router.receive_state s ds nr) ∧
      countSelf (Router.receive_state s ds nr) = 1) ∧
    (SelfInvariant (Router.check_timeout s nt) ∧
      countSelf (Router.check_timeout s nt) = 1) ∧
    (SelfInvariant (Router.check_is_garbage s ng) ∧
      countSelf (Router.check_is_garbage s ng) = 1) := by
  obtain ⟨h1, _⟩ := receive_state_inv s ds nr h
  obtain ⟨h2, _⟩ := check_timeout_inv s nt h
  obtain ⟨h3, _⟩ := check_is_garbage_inv s ng h
  exact ⟨⟨h1, countSelf_eq_one _ h1⟩, ⟨h2, countSelf_eq_one _ h2⟩, ⟨h3, countSelf_eq_one _ h3⟩⟩

/-- Witness for C5: the freshly initialized router 1 receiving the
concrete datagram `exDatagram`, with all three timer ticks at time 0. -/
theorem c5_self_entry_invariant_witness :
    (SelfInvariant (Router.receive_state exRouter [exDatagram] 0) ∧
      countSelf (Router.receive_state exRouter [exDatagram] 0) = 1) ∧
    (SelfInvariant (Router.check_timeout exRouter 0) ∧
      countSelf (Router.check_timeout exRouter 0) = 1) ∧
    (SelfInvariant (Router.check_is_garbage exRouter 0) ∧
      countSelf (Router.check_is_garbage exRouter 0) = 1) :=
  c5_self_entry_invariant exRouter [exDatagram] 0 0 0
    ⟨⟨by decide, by decide⟩, RTE.from_host 1 0 0 true 0, rfl, rfl, rfl, rfl, rfl, rfl, rfl⟩

/-- C9: for every configured output neighbor `n` (a nonzero router id) of a
router with inputs and a well-formed table, the periodic update emits a
datagram to `n` that carries one RTE per table entry (so every non-self
entry, with split horizon / poisoned reverse applied), and in particular
the sender's self-entry with metric 0 and next hop 0, passed through
unchanged because its next hop 0 is never a neighbor id. -/
theorem c9_periodic_update_contents (s : RouterState) (now n m : Nat)
    (hn : (n, m) ∈ s.outputs) (h0 : n ≠ 0) (hin : s.hasInputs = true)
    (hinv : SelfInvariant s) :
    ∃ p, (n, p) ∈ Router.periodic_update s now ∧
      List.Forall₂ (fun e e2 =>
          (e.next_hop = n → e2.addr = e.addr ∧ e2.next_hop = e.next_hop ∧ e2.metric = RTE.MAX_METRIC) ∧
          (e.next_hop ≠ n → e2 = e))
        (s.routing_table.map Prod.snd) p.rtes ∧
      ∃ r, r ∈ p.rtes ∧ r ∈ s.routing_table.map Prod.snd ∧
        r.addr = s.id ∧ r.metric = 0 ∧ r.next_hop = 0 := by
  obtain ⟨⟨hnd, haddr⟩, r, hget, hnh, hm, _⟩ := hinv
  refine ⟨{ header := Header.from_host s.id,
            rtes := Router.validated_rtes n now (s.routing_table.map Prod.snd) }, ?_, ?_, ?_⟩
  · unfold Router.periodic_update Router.update
    rw [if_pos hin]
    exact List.mem_map.mpr ⟨(n, m), hn, rfl⟩
  · exact validated_rtes_forall2 (s.routing_table.map Prod.snd) n now
  · have hmem : r ∈ s.routing_table.map Prod.snd :=
      List.mem_map.mpr ⟨(s.id, r), alGet_mem _ _ _ hget, rfl⟩
    have hself : r ∈ Router.validated_rtes n now (s.routing_table.map Prod.snd) := by
      apply List.mem_map.mpr
      refine ⟨r, hmem, ?_⟩
      rw [if_pos]
      rw [hnh]
      exact fun h => h0 h.symm
    exact ⟨r, hself, hmem, haddr _ (alGet_mem _ _ _ hget), hm, hnh⟩

/-- Witness for C9: router 1's periodic update to its neighbor 2 from the
freshly initialized state, at time 0. -/
theorem c9_periodic_update_contents_witness :
    ∃ p, (2, p) ∈ Router.periodic_update exRouter 0 ∧
      List.Forall₂ (fun e e2 =>
          (e.next_hop = 2 → e2.addr = e.addr ∧ e2.next_hop = e.next_hop ∧ e2.metric = RTE.MAX_METRIC) ∧
          (e.next_hop ≠ 2 → e2 = e))
        (exRouter.routing_table.map Prod.snd) p.rtes ∧
      ∃ r, r ∈ p.rtes ∧ r ∈ exRouter.routing_table.map Prod.snd ∧
        r.addr = exRouter.id ∧ r.metric = 0 ∧ r.next_hop = 0 :=
  c9_periodic_update_contents exRouter 0 2 1 (by decide) (by decide) rfl
    ⟨⟨by decide, by decide⟩, RTE.from_host 1 0 0 true 0, rfl, rfl, rfl, rfl, rfl, rfl, rfl⟩

/-!  Non-interference of the unchecked wire fields (C10). -/

/-- The fields of an RTE that the receive path reads or writes — everything
except the wire fields `afi`, `tag`, `mask`, which are decoded but never
consulted. -/
structure RTECore where
  addr : Nat
  next_hop : Nat
  metric : Nat
  changed : Bool
  imported : Bool
  is_garbage : Bool
  timeout : Option Nat
  deriving Repr, DecidableEq

/-- Projection of an RTE to its receive-path-relevant fields. -/
def RTE.core (r : RTE) : RTECore :=
  { addr := r.addr, next_hop := r.next_hop, metric := r.metric, changed := r.changed,
    imported := r.imported, is_garbage := r.is_garbage, timeout := r.timeout }

/-- Projection of a routing table to the receive-path-relevant fields of
its entries. -/
def tableCore (t : List (Nat × RTE)) : List (Nat × RTECore) :=
  t.map (fun kr => (kr.1, kr.2.core))

/-- The observable outcome of one receive for C10: whether it completed
without a propagating exception, the table keyed by destination with the
relevant entry fields, and the table-level change flag. -/
def resCore (e : Except RouterState RouterState) : Bool × List (Nat × RTECore) × Bool :=
  match e with
  | .ok s => (true, tableCore s.routing_table, s.changed)
  | .error s => (false, tableCore s.routing_table, s.changed)

theorem tableCore_alSet : ∀ (t : List (Nat × RTE)) (a : Nat) (v : RTE),
    tableCore (alSet t a v) = alSet (tableCore t) a v.core := by
  intro t
  induction t with
  | nil => intro a v; rfl
  | cons kw rest ih =>
    intro a v
    rw [show kw = (kw.1, kw.2) from rfl]
    unfold alSet
    by_cases hk : kw.1 = a
    · rw [if_pos hk]
      simp only [tableCore, List.map_cons, alSet, if_pos hk]
    · rw [if_neg hk]
      simp only [tableCore, List.map_cons, alSet, if_neg hk, List.cons.injEq, true_and]
      exact ih a v

theorem alGet_tableCore (t : List (Nat × RTE)) (a : Nat) :
    alGet (tableCore t) a = (alGet t a).map RTE.core :=
  alGet_map_val RTE.core t a

theorem alGet_core_eq (t1 t2 : List (Nat × RTE)) (a : Nat)
    (h : tableCore t1 = tableCore t2) :
    (alGet t1 a).map RTE.core = (alGet t2 a).map RTE.core := by
  rw [← alGet_tableCore, ← alGet_tableCore, h]

theorem existing_step_proj (s : RouterState) (src now link : Nat) (r cur : RTE) :
    (Router.existing_step s src now r cur link).id = s.id ∧
    (Router.existing_step s src now r cur link).outputs = s.outputs := by
  unfold Router.existing_step
  split
  · split
    · exact ⟨rfl, rfl⟩
    · split
      · exact ⟨rfl, rfl⟩
      · split
        · exact ⟨rfl, rfl⟩
        · exact ⟨rfl, rfl⟩
  · split
    · exact ⟨rfl, rfl⟩
    · exact ⟨rfl, rfl⟩

theorem existing_step_core (s1 s2 : RouterState) (src now link : Nat) (r1 r2 cur1 cur2 : RTE)
    (hch : s1.changed = s2.changed)
    (ht : tableCore s1.routing_table = tableCore s2.routing_table)
    (hr : r1.core = r2.core) (hc : cur1.core = cur2.core) :
    ((Router.existing_step s1 src now r1 cur1 link).changed,
      tableCore (Router.existing_step s1 src now r1 cur1 link).routing_table) =
    ((Router.existing_step s2 src now r2 cur2 link).changed,
      tableCore (Router.existing_step s2 src now r2 cur2 link).routing_table) := by
  have hradd : r1.addr = r2.addr := congrArg RTECore.addr hr
  have hrmet : r1.metric = r2.metric := congrArg RTECore.metric hr
  have hcadd : cur1.addr = cur2.addr := congrArg RTECore.addr hc
  have hcnh : cur1.next_hop = cur2.next_hop := congrArg RTECore.next_hop hc
  have hcmet : cur1.metric = cur2.metric := congrArg RTECore.metric hc
  have hcch : cur1.changed = cur2.changed := congrArg RTECore.changed hc
  have hcim : cur1.imported = cur2.imported := congrArg RTECore.imported hc
  have hcg : cur1.is_garbage = cur2.is_garbage := congrArg RTECore.is_garbage hc
  have hcto : cur1.timeout = cur2.timeout := congrArg RTECore.timeout hc
  simp only [Router.existing_step, Router.update_route, RTE.init_timeout_at]
  simp only [← hradd, ← hrmet, ← hcadd, ← hcnh, ← hcmet, ← hcch, ← hcim, ← hcg, ← hcto]
  split
  · split
    · rw [tableCore_alSet, tableCore_alSet, ht]
      rfl
    · split
      · rw [tableCore_alSet, tableCore_alSet, ht]
        rfl
      · split
        · rw [hch, tableCore_alSet, tableCore_alSet, ht]
          rfl
        · rw [hch, ht]
  · split
    · rw [tableCore_alSet, tableCore_alSet, ht]
      rfl
    · rw [hch, ht]

theorem update_routing_table_core : ∀ (l1 l2 : List RTE) (s1 s2 : RouterState) (src now : Nat),
    s1.id = s2.id → s1.outputs = s2.outputs → s1.changed = s2.changed →
    tableCore s1.routing_table = tableCore s2.routing_table →
    List.Forall₂ (fun a b => a.core = b.core) l1 l2 →
    resCore (Router.update_routing_table s1 src now l1) =
      resCore (Router.update_routing_table s2 src now l2) := by
  intro l1
  induction l1 with
  | nil =>
    intro l2 s1 s2 src now hid hout hch ht hf
    cases hf
    simp [Router.update_routing_table, resCore, ht, hch]
  | cons r1 rest1 ih =>
    intro l2 s1 s2 src now hid hout hch ht hf
    cases hf with
    | cons hr hrest =>
      next r2 rest2 =>
      have hradd : r1.addr = r2.addr := congrArg RTECore.addr hr
      have hrmet : r1.metric = r2.metric := congrArg RTECore.metric hr
      by_cases hid1 : r1.addr = s1.id
      · have hid2 : r2.addr = s2.id := by rw [← hradd, hid1, hid]
        rw [update_routing_table_cons_self s1 src now r1 rest1 hid1,
            update_routing_table_cons_self s2 src now r2 rest2 hid2]
        exact ih rest2 s1 s2 src now hid hout hch ht hrest
      · have hid2 : r2.addr ≠ s2.id := fun h => hid1 (by rw [hradd, h, ← hid])
        cases hlk : alGet s1.outputs src with
        | none =>
          have hlk2 : alGet s2.outputs src = none := by rw [← hout]; exact hlk
          rw [update_routing_table_cons_nolink s1 src now r1 rest1 hid1 hlk,
              update_routing_table_cons_nolink s2 src now r2 rest2 hid2 hlk2]
          simp [resCore, ht, hch]
        | some link =>
          have hlk2 : alGet s2.outputs src = some link := by rw [← hout]; exact hlk
          have hgets := alGet_core_eq s1.routing_table s2.routing_table r1.addr ht
          cases hcur : alGet s1.routing_table r1.addr with
          | none =>
            rw [hcur] at hgets
            have hcur2 : alGet s2.routing_table r2.addr = none := by
              rw [← hradd]
              cases he : alGet s2.routing_table r1.addr with
              | none => rfl
              | some c => rw [he] at hgets; simp at hgets
            rw [update_routing_table_cons_new s1 src now r1 rest1 link hid1 hlk hcur,
                update_routing_table_cons_new s2 src now r2 rest2 link hid2 hlk2 hcur2]
            rw [← hrmet, ← hradd]
            by_cases hm : min (r1.metric + link) RTE.MAX_METRIC = RTE.MAX_METRIC
            · rw [if_pos hm, if_pos hm]
              simp [resCore, ht, hch]
            · rw [if_neg hm, if_neg hm]
              have hrim : r1.imported = r2.imported := congrArg RTECore.imported hr
              have hrg : r1.is_garbage = r2.is_garbage := congrArg RTECore.is_garbage hr
              have hrto : r1.timeout = r2.timeout := congrArg RTECore.timeout hr
              simp only [resCore]
              rw [tableCore_alSet, tableCore_alSet, ht]
              simp [RTE.core, hrim, hrg, hrto]
          | some cur1 =>
            rw [hcur] at hgets
            have hsome : ∃ cur2, alGet s2.routing_table r2.addr = some cur2 ∧
                cur1.core = cur2.core := by
              rw [← hradd]
              cases he : alGet s2.routing_table r1.addr with
              | none => rw [he] at hgets; simp at hgets
              | some c =>
                rw [he] at hgets
                simp only [Option.map_some', Option.some.injEq] at hgets
                exact ⟨c, rfl, hgets⟩
            obtain ⟨cur2, hcur2, hcc⟩ := hsome
            rw [update_routing_table_cons_existing s1 src now r1 rest1 cur1 link hid1 hlk hcur,
                update_routing_table_cons_existing s2 src now r2 rest2 cur2 link hid2 hlk2 hcur2]
            have hp1 := existing_step_proj s1 src now link r1 cur1
            have hp2 := existing_step_proj s2 src now link r2 cur2
            have hcore := existing_step_core s1 s2 src now link r1 r2 cur1 cur2 hch ht hr hcc
            exact ih rest2 _ _ src now
              (by rw [hp1.1, hp2.1, hid])
              (by rw [hp1.2, hp2.2, hout])
              (congrArg Prod.fst hcore)
              (congrArg Prod.snd hcore)
              hrest

/-- The six wire fields of one RTE as carried in a datagram. -/
structure WireRTE where
  afi : Nat
  tag : Nat
  addr : Nat
  mask : Nat
  next_hop : Nat
  metric : Nat
  deriving Repr, DecidableEq

/-- The 20 bytes of one wire RTE. -/
def WireRTE.bytes (w : WireRTE) : List Nat :=
  toBytes2 w.afi ++ toBytes2 w.tag ++ toBytes4 w.addr ++ toBytes4 w.mask ++
  toBytes4 w.next_hop ++ toBytes4 w.metric

/-- A received datagram assembled from its header fields, its per-RTE wire
fields, and shared trailing junk. -/
def packetBytes (cmd ver src : Nat) (ws : List WireRTE) (junk : List Nat) : List Nat :=
  [cmd, ver] ++ toBytes2 src ++ (ws.map WireRTE.bytes).flatten ++ junk

/-- The RTE that `RTE._from_network` produces from one wire RTE with sender
`src` at time `now`. -/
def WireRTE.decoded (w : WireRTE) (src now : Nat) : RTE :=
  { afi := w.afi, tag := w.tag, addr := w.addr, mask := w.mask,
    next_hop := if w.next_hop = 0 then src else w.next_hop, metric := w.metric,
    changed := false, imported := false, is_garbage := false, timeout := some now }

theorem wireRTE_bytes_length (w : WireRTE) : w.bytes.length = 20 := by
  simp [WireRTE.bytes, toBytes2, toBytes4]

theorem rte_from_network_wire (w : WireRTE) (src now : Nat) :
    RTE.from_network w.bytes src now = some (w.decoded src now) :=
  rte_from_network_concat w.afi w.tag w.addr w.mask w.next_hop w.metric src now

theorem join_bytes_length : ∀ ws : List WireRTE,
    ((ws.map WireRTE.bytes).flatten).length = 20 * ws.length := by
  intro ws
  induction ws with
  | nil => rfl
  | cons w ws ih =>
    simp only [List.map_cons, List.flatten_cons, List.length_append, List.length_cons,
      wireRTE_bytes_length, ih]
    ring

theorem decodeRtes_join : ∀ (ws : List WireRTE) (tail : List Nat) (src now : Nat),
    decodeRtes ws.length ((ws.map WireRTE.bytes).flatten ++ tail) src now =
      some (ws.map (fun w => w.decoded src now)) := by
  intro ws
  induction ws with
  | nil => intro tail src now; rfl
  | cons w ws ih =>
    intro tail src now
    simp only [List.map_cons, List.flatten_cons, List.length_cons, List.append_assoc]
    have htake : (w.bytes ++ ((ws.map WireRTE.bytes).flatten ++ tail)).take 20 = w.bytes :=
      List.take_left' (wireRTE_bytes_length w)
    have hdrop : (w.bytes ++ ((ws.map WireRTE.bytes).flatten ++ tail)).drop 20 =
        (ws.map WireRTE.bytes).flatten ++ tail :=
      List.drop_left' (wireRTE_bytes_length w)
    unfold decodeRtes
    rw [htake, hdrop, rte_from_network_wire, ih]

theorem packet_from_network_packetBytes (cmd ver src now : Nat) (ws : List WireRTE)
    (junk : List Nat) (hj : junk.length < 20) :
    Packet.from_network (packetBytes cmd ver src ws junk) now =
      some { header := { cmd := cmd, ver := ver, src := src },
             rtes := ws.map (fun w => w.decoded src now) } := by
  have hlen : (packetBytes cmd ver src ws junk).length = 4 + 20 * ws.length + junk.length := by
    simp only [packetBytes, toBytes2, List.append_assoc, List.length_append, List.length_cons,
      List.length_nil, join_bytes_length]
    omega
  have hh : Header.from_network ((packetBytes cmd ver src ws junk).take 4) =
      some { cmd := cmd, ver := ver, src := src } := by
    have e : Header.from_network ((packetBytes cmd ver src ws junk).take 4) =
        some { cmd := beNat [cmd], ver := beNat [ver], src := beNat (toBytes2 src) } := rfl
    rw [e, beNat_toBytes2]
    simp [beNat]
  have hd : decodeRtes (((packetBytes cmd ver src ws junk).length - 4) / 20)
      ((packetBytes cmd ver src ws junk).drop 4) src now =
      some (ws.map (fun w => w.decoded src now)) := by
    rw [hlen]
    have hcount : (4 + 20 * ws.length + junk.length - 4) / 20 = ws.length := by omega
    rw [hcount]
    exact decodeRtes_join ws junk src now
  simp only [Packet.from_network, hh, hd]

theorem resCore_table (e : Except RouterState RouterState) :
    (resCore e).2.1 = tableCore (excState e).routing_table := by
  cases e with
  | ok s => rfl
  | error s => rfl

theorem tableCore_keys (t : List (Nat × RTE)) :
    (tableCore t).map Prod.fst = t.map Prod.fst := by
  unfold tableCore
  rw [List.map_map]
  rw [show Prod.fst ∘ (fun kr : Nat × RTE => (kr.1, kr.2.core)) = Prod.fst from
    funext fun kr => rfl]

theorem decoded_core_forall2 : ∀ (ws1 ws2 : List WireRTE) (src now : Nat),
    List.Forall₂ (fun w1 w2 => w1.addr = w2.addr ∧ w1.next_hop = w2.next_hop ∧
      w1.metric = w2.metric) ws1 ws2 →
    List.Forall₂ (fun a b => a.core = b.core)
      (ws1.map (fun w => w.decoded src now)) (ws2.map (fun w => w.decoded src now)) := by
  intro ws1
  induction ws1 with
  | nil =>
    intro ws2 src now h
    cases h
    exact List.Forall₂.nil
  | cons w1 rest1 ih =>
    intro ws2 src now h
    cases h with
    | cons hw hrest =>
      next w2 rest2 =>
      refine List.Forall₂.cons ?_ (ih rest2 src now hrest)
      simp [WireRTE.decoded, RTE.core, hw.1, hw.2.1, hw.2.2]

/-- C10: neither decoding nor the receive path reads the fixed wire fields:
for two received datagrams of equal length sharing the same sender, the
same per-RTE addr, next hop and metric fields, and the same trailing bytes,
but differing arbitrarily in the header's cmd and ver and in the afi, tag
and mask of each RTE, one receive from the same starting state produces the
same outcome (exception or not), and routing tables that agree on the set
of destinations and, per destination, on metric, next hop, changed and
is_garbage. -/
theorem c10_unchecked_fields_no_influence (cmd1 ver1 cmd2 ver2 src now : Nat)
    (ws1 ws2 : List WireRTE) (junk : List Nat) (s : RouterState)
    (hj : junk.length < 20)
    (hw : List.Forall₂ (fun w1 w2 => w1.addr = w2.addr ∧ w1.next_hop = w2.next_hop ∧
            w1.metric = w2.metric) ws1 ws2) :
    resCore (Router.process_datagram s (packetBytes cmd1 ver1 src ws1 junk) now) =
      resCore (Router.process_datagram s (packetBytes cmd2 ver2 src ws2 junk) now) ∧
    (excState (Router.process_datagram s (packetBytes cmd1 ver1 src ws1 junk) now)).routing_table.map Prod.fst =
      (excState (Router.process_datagram s (packetBytes cmd2 ver2 src ws2 junk) now)).routing_table.map Prod.fst ∧
    ∀ a, (alGet (excState (Router.process_datagram s (packetBytes cmd1 ver1 src ws1 junk) now)).routing_table a).map
          (fun r => (r.metric, r.next_hop, r.changed, r.is_garbage)) =
        (alGet (excState (Router.process_datagram s (packetBytes cmd2 ver2 src ws2 junk) now)).routing_table a).map
          (fun r => (r.metric, r.next_hop, r.changed, r.is_garbage)) := by
  have hmain : resCore (Router.process_datagram s (packetBytes cmd1 ver1 src ws1 junk) now) =
      resCore (Router.process_datagram s (packetBytes cmd2 ver2 src ws2 junk) now) := by
    simp only [Router.process_datagram,
      packet_from_network_packetBytes cmd1 ver1 src now ws1 junk hj,
      packet_from_network_packetBytes cmd2 ver2 src now ws2 junk hj]
    exact update_routing_table_core _ _ s s src now rfl rfl rfl rfl
      (decoded_core_forall2 ws1 ws2 src now hw)
  have htc : tableCore (excState (Router.process_datagram s (packetBytes cmd1 ver1 src ws1 junk) now)).routing_table =
      tableCore (excState (Router.process_datagram s (packetBytes cmd2 ver2 src ws2 junk) now)).routing_table := by
    rw [← resCore_table, ← resCore_table, hmain]
  refine ⟨hmain, ?_, ?_⟩
  · rw [← tableCore_keys, ← tableCore_keys, htc]
  · intro a
    have h1 := alGet_core_eq _ _ a htc
    have h2 := congrArg (Option.map (fun c : RTECore =>
      (c.metric, c.next_hop, c.changed, c.is_garbage))) h1
    rw [Option.map_map, Option.map_map] at h2
    exact h2

/-- A concrete wire RTE advertising destination 3 at metric 1 with the
standard fixed fields. -/
def exW1 : WireRTE := { afi := 2, tag := 0, addr := 3, mask := 0, next_hop := 0, metric := 1 }

/-- The same advertisement with scrambled afi, tag and mask. -/
def exW2 : WireRTE := { afi := 99, tag := 5, addr := 3, mask := 77, next_hop := 0, metric := 1 }

/-- Witness for C10: a valid datagram from neighbor 2 and its
scrambled-fields twin (cmd 9, ver 7, afi 99, tag 5, mask 77), received by
router 1 from the same state. -/
theorem c10_unchecked_fields_no_influence_witness :
    resCore (Router.process_datagram exRouter (packetBytes 2 2 2 [exW1] []) 0) =
      resCore (Router.process_datagram exRouter (packetBytes 9 7 2 [exW2] []) 0) ∧
    (excState (Router.process_datagram exRouter (packetBytes 2 2 2 [exW1] []) 0)).routing_table.map Prod.fst =
      (excState (Router.process_datagram exRouter (packetBytes 9 7 2 [exW2] []) 0)).routing_table.map Prod.fst ∧
    ∀ a, (alGet (excState (Router.process_datagram exRouter (packetBytes 2 2 2 [exW1] []) 0)).routing_table a).map
          (fun r => (r.metric, r.next_hop, r.changed, r.is_garbage)) =
        (alGet (excState (Router.process_datagram exRouter (packetBytes 9 7 2 [exW2] []) 0)).routing_table a).map
          (fun r => (r.metric, r.next_hop, r.changed, r.is_garbage)) :=
  c10_unchecked_fields_no_influence 2 2 9 7 2 0 [exW1] [exW2] [] exRouter (by decide)
    (List.Forall₂.cons (by decide) List.Forall₂.nil)
